import Mathlib

/-!
Shallow embedding of the `aicmd` command-line tool (Go) and proofs about it.

The program has two parts: a provider abstraction (`GenerateCompletion` for an
OpenAI client, an Anthropic client and a streaming Ollama client) and a
conversation loop (`main`) that sends a message history to the provider,
parses a `{command, description}` JSON reply, asks the user for confirmation,
executes the command through a shell, and on non-zero exit feeds the captured
output back to the provider for a fixed command (a `goto`-based retry chain).

External effects (HTTP calls, JSON unmarshalling, subprocess execution,
standard input) are modelled as oracle parameters: the embedding quantifies
over every possible outcome of each external call, in the order the calls
are made.
-/

namespace Aicmd

/-- Go `error` values are abstracted as their message strings. -/
abbrev GoError := String

/-- Embedding of `strings.TrimSpace`: drop leading and trailing whitespace
(characters of code point at most 32), computably on the character list. -/
def strTrim (s : String) : String :=
  ⟨((s.data.dropWhile (fun c => c ≤ ' ')).reverse.dropWhile
      (fun c => c ≤ ' ')).reverse⟩

/-- Embedding of `strings.ToLower`: lowercase every character, computably on
the character list. -/
def strToLower (s : String) : String :=
  ⟨s.data.map Char.toLower⟩

/-- A chat message (go-openai `ChatCompletionMessage`, and the repo's own
`Message` struct in `types.go` / the Ollama wire format): a role and a
content string. -/
structure Message where
  role : String
  content : String
deriving DecidableEq

/-- Role constant `openai.ChatMessageRoleUser`. -/
def roleUser : String := "user"

/-- Role constant `openai.ChatMessageRoleAssistant`. -/
def roleAssistant : String := "assistant"

/-- The structured reply the loop expects from the model
(`CommandResponse` in `main.go`). -/
structure CommandResponse where
  command : String
  description : String
deriving DecidableEq

/-! ## OpenAI client (`openai_client.go`) -/

/-- The part of a chat-completion choice message that the code reads. -/
structure ChatMessage where
  content : String
deriving DecidableEq

/-- One element of the `Choices` list of an OpenAI chat-completion response. -/
structure ChatChoice where
  message : ChatMessage
deriving DecidableEq

/-- The part of `openai.ChatCompletionResponse` that the code reads. -/
structure ChatCompletionResponse where
  choices : List ChatChoice
deriving DecidableEq

namespace OpenAIClient

/-- Embedding of `OpenAIClient.GenerateCompletion` (`openai_client.go`).
The library call `CreateChatCompletion` is external; its outcome is the
`Except` argument.  On error the method forwards the error; otherwise it
returns `resp.Choices[0].Message.Content`.  The Go code indexes `Choices[0]`
without a length check, so the embedding returns `none` (a runtime panic,
index out of range) when the choices list is empty. -/
def GenerateCompletion (callResult : Except GoError ChatCompletionResponse) :
    Option (Except GoError String) :=
  match callResult with
  | .error e => some (.error e)
  | .ok resp =>
    match resp.choices with
    | [] => none
    | c :: _ => some (.ok c.message.content)

end OpenAIClient

/-! ## Anthropic client (`anthropic_client.go`) -/

/-- One element of the `content` list of an Anthropic response. -/
structure AnthropicContentItem where
  text : String
deriving DecidableEq

/-- The part of the Anthropic API response that the code reads
(`AnthropicResponse` in `anthropic_client.go`). -/
structure AnthropicResponse where
  content : List AnthropicContentItem
deriving DecidableEq

/-- Outcome of the HTTP exchange performed by the Anthropic client:
the network call may fail, reading the body may fail, or a response with a
status code arrives whose body may or may not unmarshal into
`AnthropicResponse`. -/
inductive AnthropicHttp where
  | netError (e : GoError)
  | readError (e : GoError)
  | response (status : Nat) (body : String) (parsedBody : Option AnthropicResponse)
deriving DecidableEq

namespace AnthropicClient

/-- Embedding of `AnthropicClient.GenerateCompletion` (`anthropic_client.go`):
forward network and read errors; non-200 status is an error carrying the body;
an unparseable body is an error; an empty `content` list is the error
"empty response from API"; otherwise return `content[0].text`. -/
def GenerateCompletion (outcome : AnthropicHttp) : Except GoError String :=
  match outcome with
  | .netError e => .error ("error making request: " ++ e)
  | .readError e => .error ("error reading response: " ++ e)
  | .response status body parsedBody =>
    if status ≠ 200 then
      .error ("API request failed with status " ++ toString status ++ ": " ++ body)
    else
      match parsedBody with
      | none => .error "error parsing response"
      | some r =>
        match r.content with
        | [] => .error "empty response from API"
        | c :: _ => .ok c.text

end AnthropicClient

/-! ## Ollama client (`openai_client.go`, second file: `OllamaClient`) -/

/-- One streamed line of an Ollama chat response
(`OllamaResponse` in the source). -/
structure OllamaResponse where
  model : String
  created : String
  message : Message
  done : Bool
deriving DecidableEq

/-- One line produced by the scanner over the HTTP response body: the raw
line is empty, fails to unmarshal, or parses into an `OllamaResponse`. -/
inductive ScanLine where
  | blank
  | malformed (raw : String)
  | parsed (r : OllamaResponse)
deriving DecidableEq

/-- Whether a scanned line is one that fails to unmarshal. -/
def ScanLine.isMalformed : ScanLine → Bool
  | .malformed _ => true
  | _ => false

/-- Outcome of the HTTP exchange performed by the Ollama client: a network
failure, or a response with a status code, a raw body (used in the non-200
error message), the scanned body lines, and the scanner's sticky read error
(reported when the line list is exhausted without a `done` record). -/
inductive OllamaHttp where
  | netError (e : GoError)
  | response (status : Nat) (body : String) (lines : List ScanLine)
      (scanError : Option GoError)
deriving DecidableEq

namespace OllamaClient

/-- The tail of `OllamaClient.GenerateCompletion` after the scan loop:
an empty accumulated string is the error
"no valid response received from Ollama API"; otherwise it is returned. -/
def finish (acc : String) : Except GoError String :=
  if acc = "" then .error "no valid response received from Ollama API"
  else .ok acc

/-- The scan loop of `OllamaClient.GenerateCompletion`: blank lines are
skipped; a line that fails to unmarshal aborts with an error; the `content`
field of each parsed line is appended when non-empty; the loop breaks at the
first line whose `done` field is true.  When the lines run out, the
scanner's sticky error (if any) is reported, else the accumulator is
finished. -/
def processLines (scanError : Option GoError) :
    List ScanLine → String → Except GoError String
  | [], acc =>
    match scanError with
    | some e => .error ("error reading response stream: " ++ e)
    | none => finish acc
  | .blank :: rest, acc => processLines scanError rest acc
  | .malformed raw :: _, _ =>
    .error ("error decoding response line: invalid character\nLine: " ++ raw)
  | .parsed r :: rest, acc =>
    let acc' := if r.message.content ≠ "" then acc ++ r.message.content else acc
    if r.done then finish acc' else processLines scanError rest acc'

/-- Embedding of `OllamaClient.GenerateCompletion`: forward network errors;
non-200 status is an error carrying the body; otherwise run the scan loop
over the streamed lines with an empty accumulator. -/
def GenerateCompletion (outcome : OllamaHttp) : Except GoError String :=
  match outcome with
  | .netError e => .error e
  | .response status body lines scanError =>
    if status ≠ 200 then
      .error ("API request failed with status " ++ toString status ++ ": " ++ body)
    else processLines scanError lines ""

end OllamaClient

/-- Specification-side view of a stream: the parsed records up to and
including the first one whose `done` field is true, blank lines dropped,
everything after the first terminal record ignored. -/
def recordsToDone : List ScanLine → List OllamaResponse
  | [] => []
  | .blank :: rest => recordsToDone rest
  | .malformed _ :: _ => []
  | .parsed r :: rest => if r.done then [r] else r :: recordsToDone rest

/-- Specification-side view: concatenation of the non-empty message content
fields of a record list. -/
def contentsConcat : List OllamaResponse → String
  | [] => ""
  | r :: rs =>
    (if r.message.content ≠ "" then r.message.content else "") ++ contentsConcat rs

/-! ## Provider selection -/

/-- The environment variables the provider resolver reads; `""` models an
unset variable.  The variable names are the constants of `types.go`:
`ANTHROPIC_API_KEY`, `OPENAI_API_KEY`, `OLLAMA_API_BASE`. -/
structure Env where
  anthropicApiKey : String
  openaiApiKey : String
  ollamaApiBase : String
deriving DecidableEq

/-- Which backend the resolver selects. -/
inductive ProviderChoice where
  | anthropic
  | openai
  | ollama
deriving DecidableEq

/-- Modelled from the spec: the final revision's provider resolver
(`getClient` in the `main.go` revision with the `--provider` flag and the
`AnthropicClient`) is not among the source files; only its declarations
(`types.go` constants, `anthropic_client.go`) are.  Per the spec, when no
provider is forced by flag the resolver prefers the Anthropic backend when
its credential is set, then the OpenAI backend, then the Ollama gateway,
and configuration with none of them set is a fatal error. -/
def getClient (env : Env) : Except GoError ProviderChoice :=
  if env.anthropicApiKey ≠ "" then .ok .anthropic
  else if env.openaiApiKey ≠ "" then .ok .openai
  else if env.ollamaApiBase ≠ "" then .ok .ollama
  else .error "no provider configuration found"

/-! ## Conversation loop (`main.go`) -/

/-- The fixed instruction template of `main.go` (`const prompt`); the user's
request is substituted for the trailing `%s`. -/
def promptText : String :=
  "You are a command line assistant. Generate a single bash command\nthat accomplishes the user\x27s request. IMPORTANT: Your response must be a JSON object that can be directly parsed, no markdown (seriously NO code blocks) or styling at all. Escape quotes in the json so that it can be parsed correctly.\nThe json must have exactly two fields: \"command\" containing the raw command text, and \"description\"\ncontaining a detailed explanation of how the command works, breaking down each component\nand flag being used. Example:\n\x7b\"command\": \"ls -la\", \"description\": \"Uses \x27ls\x27 (list) command with \x27-l\x27 flag for long format showing permissions and sizes, and \x27-a\x27 flag to show hidden files starting with dot\"\x7d\nThe command should be safe and should not perform destructive operations without\nuser confirmation. Request: "

/-- Content of the user turn built from a request
(`fmt.Sprintf(prompt, userRequest)`). -/
def promptTemplate (userRequest : String) : String :=
  promptText ++ userRequest

/-- Content of the `errorMessage` string built from the captured output of a
failed command (`fmt.Sprintf("stdout: %s\nstderr: %s\n", ...)`). -/
def errorMessageOf (stdout stderr : String) : String :=
  "stdout: " ++ stdout ++ "\nstderr: " ++ stderr ++ "\n"

/-- Content of the user turn appended after a failed execution
(`"The command failed with the following output:\n%s\nPlease explain..."`). -/
def fixRequestContent (stdout stderr : String) : String :=
  "The command failed with the following output:\n" ++ errorMessageOf stdout stderr
    ++ "\nPlease explain the error and provide a fixed command."

/-- Content of the user turn appended when the user opts to add a successful
command's output to the context (`"Command output:\n%s"`). -/
def outputContextContent (stdout : String) : String :=
  "Command output:\n" ++ stdout

/-- Outcome of one `cmd.Run()` of `exec.Command("bash", "-c", command)`:
a nil error (exit code 0), an `*exec.ExitError` carrying an exit code, or
any other error (the command failed to launch).  `stdout` and `stderr` are
the contents of the teed capture buffers. -/
inductive ExecOutcome where
  | success (stdout stderr : String)
  | exitError (code : Int) (stdout stderr : String)
  | launchError (e : GoError)
deriving DecidableEq

/-- How one iteration of the interaction loop ended; every one of these
returns control to the top of the loop (`continue` in the Go source). -/
inductive Ending where
  /-- `GenerateCompletion` for the request failed. -/
  | generateError (e : GoError)
  /-- `json.Unmarshal` of the model reply failed; the error and the raw
  reply are printed. -/
  | parseError (raw : String)
  /-- the user answered `f` at the confirmation prompt: no execution. -/
  | fixRequested
  /-- the confirmation answer matched none of the recognized tokens:
  no execution, the loop falls through. -/
  | notConfirmed
  /-- the subprocess failed to launch. -/
  | launchFailed (e : GoError)
  /-- `GenerateCompletion` for a fix failed mid-chain. -/
  | fixGenerateError (e : GoError)
  /-- `json.Unmarshal` of a fix reply failed mid-chain. -/
  | fixParseError
  /-- the user declined to run a suggested fixed command. -/
  | fixDeclined
  /-- an execution finished with exit code 0. -/
  | commandSucceeded
  /-- the supplied list of scripted execution outcomes was exhausted while
  another execution was required (the modelled interaction was cut short). -/
  | ranOut
deriving DecidableEq

/-- Result of one iteration of the interaction loop: the message history
afterwards, the command texts handed to `exec.Command` in order, the
(trimmed, lowercased) answers with which the user accepted a fixed command,
and how the iteration ended. -/
structure IterOut where
  messages : List Message
  executed : List String
  accepted : List String
  ending : Ending
deriving DecidableEq

/-- Number of subprocess executions started during an iteration. -/
def IterOut.execCount (o : IterOut) : Nat :=
  o.executed.length

/-- The tail shared by a nil-error run and an `*exec.ExitError` with code 0
(`main.go` lines 285-300): ask whether to add the captured stdout to the
context, append it as a user turn exactly when the answer is `y` or `yes`,
then continue the loop. -/
def successTail (stdin : Nat → String) (si : Nat) (msgs : List Message)
    (stdout : String) (ran : List String) (acc : List String) : IterOut :=
  let contextResponse := strToLower (strTrim (stdin si))
  if contextResponse = "y" ∨ contextResponse = "yes" then
    ⟨msgs ++ [⟨roleUser, outputContextContent stdout⟩], ran, acc, .commandSucceeded⟩
  else ⟨msgs, ran, acc, .commandSucceeded⟩

/-- The `executeCommand` block of `main.go` (lines 225-300) together with its
`goto`-based fix-retry chain.  External effects are oracles: `parse` models
`json.Unmarshal` into `CommandResponse`; `provider pi` is the outcome of the
next `GenerateCompletion` call; `stdin si` the next line read from standard
input; the head of `execs` the outcome of the next `cmd.Run()`.  Each round
runs `command` once; on non-zero exit it appends one user turn with the
captured output, asks the provider for a fix, and on a parsed fix and an
accepting answer (`""`, `"y"` or `"yes"`) jumps back with the trimmed fixed
command. -/
def execChain (parse : String → Option CommandResponse)
    (provider : Nat → Except GoError String) (stdin : Nat → String) :
    List ExecOutcome → Nat → Nat → List Message → String → List String →
    List String → IterOut
  | [], _, _, msgs, _, ran, acc => ⟨msgs, ran, acc, .ranOut⟩
  | eo :: rest, pi, si, msgs, command, ran, acc =>
    let ran' := ran ++ [command]
    match eo with
    | .launchError e => ⟨msgs, ran', acc, .launchFailed e⟩
    | .success stdout _ => successTail stdin si msgs stdout ran' acc
    | .exitError code stdout stderr =>
      if code ≠ 0 then
        let msgs' := msgs ++ [⟨roleUser, fixRequestContent stdout stderr⟩]
        match provider pi with
        | .error e => ⟨msgs', ran', acc, .fixGenerateError e⟩
        | .ok completion =>
          match parse completion with
          | none => ⟨msgs', ran', acc, .fixParseError⟩
          | some fixResponse =>
            let fixUserResponse := strToLower (strTrim (stdin si))
            if fixUserResponse = "" ∨ fixUserResponse = "y" ∨ fixUserResponse = "yes" then
              execChain parse provider stdin rest (pi + 1) (si + 1) msgs'
                (strTrim fixResponse.command) ran' (acc ++ [fixUserResponse])
            else ⟨msgs', ran', acc, .fixDeclined⟩
      else successTail stdin si msgs stdout ran' acc

/-- One pass through the body of the interaction loop of `main.go`
(lines 180-301), after the request has been obtained: append the templated
user turn, call the provider, parse the reply, append the trimmed command as
an assistant turn, read the confirmation answer and dispatch — `f` skips
execution, an empty answer, `y` or `yes` enters the execution chain, and
anything else falls through without executing. -/
def loopBody (parse : String → Option CommandResponse)
    (provider : Nat → Except GoError String) (stdin : Nat → String)
    (execs : List ExecOutcome) (msgs : List Message) (userRequest : String) :
    IterOut :=
  let msgs := msgs ++ [⟨roleUser, promptTemplate userRequest⟩]
  match provider 0 with
  | .error e => ⟨msgs, [], [], .generateError e⟩
  | .ok completion =>
    match parse completion with
    | none => ⟨msgs, [], [], .parseError completion⟩
    | some cmdResponse =>
      let command := strTrim cmdResponse.command
      let msgs := msgs ++ [⟨roleAssistant, command⟩]
      let response := strToLower (strTrim (stdin 0))
      if response = "f" then ⟨msgs, [], [], .fixRequested⟩
      else if response = "" ∨ response = "y" ∨ response = "yes" then
        execChain parse provider stdin execs 1 1 msgs command [] []
      else ⟨msgs, [], [], .notConfirmed⟩

/-- What one full iteration of the loop decides: terminate the loop (and
with it the process, exit code 0) or continue awaiting the next input with
an updated state. -/
inductive LoopControl where
  | terminated (messages : List Message)
  | awaitInput (o : IterOut)
deriving DecidableEq

/-- One full iteration of the interaction loop of `main.go` (lines 163-302):
the first request comes verbatim from the command-line arguments
(`fromArgs = true`); later requests are read from standard input and
trimmed, and the input `exit` breaks the loop.  Every other path runs the
body and continues. -/
def loopIter (parse : String → Option CommandResponse)
    (provider : Nat → Except GoError String) (stdin : Nat → String)
    (execs : List ExecOutcome) (msgs : List Message)
    (fromArgs : Bool) (rawRequest : String) : LoopControl :=
  let userRequest := if fromArgs then rawRequest else strTrim rawRequest
  if fromArgs = false ∧ userRequest = "exit" then .terminated msgs
  else .awaitInput (loopBody parse provider stdin execs msgs userRequest)

/-! ## Helper lemmas -/

/-- `finish` only succeeds with the non-empty accumulator itself. -/
theorem finish_ok {acc s : String} (h : OllamaClient.finish acc = .ok s) :
    s = acc ∧ s ≠ "" := by
  unfold OllamaClient.finish at h
  split at h
  · exact absurd h (by simp)
  · rename_i hne
    cases h
    exact ⟨rfl, hne⟩

/-- The scan loop only succeeds with a non-empty string. -/
theorem processLines_ok_ne_empty (scanError : Option GoError) :
    ∀ (lines : List ScanLine) (acc s : String),
      OllamaClient.processLines scanError lines acc = .ok s → s ≠ "" := by
  intro lines
  induction lines with
  | nil =>
    intro acc s h
    unfold OllamaClient.processLines at h
    cases scanError with
    | none => exact (finish_ok h).2
    | some e => simp at h
  | cons l rest ih =>
    intro acc s h
    cases l with
    | blank => exact ih acc s h
    | malformed raw => simp [OllamaClient.processLines] at h
    | parsed r =>
      unfold OllamaClient.processLines at h
      by_cases hd : r.done
      · simp only [hd, if_true] at h
        exact (finish_ok h).2
      · simp only [hd, if_false] at h
        exact ih _ s h

/-- The scan loop, on a stream with no malformed line and no read error,
computes exactly `finish` of the accumulator followed by the concatenated
contents of the records up to the first terminal one. -/
theorem processLines_eq_spec :
    ∀ (lines : List ScanLine), (∀ l ∈ lines, l.isMalformed = false) →
      ∀ acc : String,
        OllamaClient.processLines none lines acc
          = OllamaClient.finish (acc ++ contentsConcat (recordsToDone lines)) := by
  intro lines
  induction lines with
  | nil =>
    intro _ acc
    simp [OllamaClient.processLines, recordsToDone, contentsConcat]
  | cons l rest ih =>
    intro hwf acc
    have hwfRest : ∀ l ∈ rest, l.isMalformed = false := by
      intro x hx
      exact hwf x (List.mem_cons_of_mem _ hx)
    cases l with
    | blank =>
      simpa [OllamaClient.processLines, recordsToDone] using ih hwfRest acc
    | malformed raw =>
      exact absurd (hwf (.malformed raw) (List.mem_cons_self _ _)) (by simp [ScanLine.isMalformed])
    | parsed r =>
      by_cases hd : r.done
      · simp only [OllamaClient.processLines, recordsToDone, contentsConcat, hd, if_true]
        by_cases hc : r.message.content = ""
        · simp [hc]
        · simp [hc]
      · simp only [OllamaClient.processLines, recordsToDone, contentsConcat, hd, if_false]
        by_cases hc : r.message.content = ""
        · simpa [hc] using ih hwfRest acc
        · rw [if_pos hc, if_pos hc, ih hwfRest (acc ++ r.message.content),
            String.append_assoc]
          simp

/-- Closed form of `successTail`: the stdout turn is appended exactly when
the context answer is `y` or `yes`; executions and accepted answers are
untouched and the round ends with `commandSucceeded`. -/
theorem successTail_eq (stdin : Nat → String) (si : Nat) (msgs : List Message)
    (stdout : String) (ran acc : List String) :
    successTail stdin si msgs stdout ran acc
      = ⟨msgs ++ (if strToLower (strTrim (stdin si)) = "y" ∨ strToLower (strTrim (stdin si)) = "yes"
                  then [⟨roleUser, outputContextContent stdout⟩] else []),
         ran, acc, .commandSucceeded⟩ := by
  unfold successTail
  split
  · rename_i hy
    rw [if_pos hy]
  · rename_i hy
    rw [if_neg hy, List.append_nil]

/-- Every message the execution chain appends to the history is a user
turn. -/
theorem execChain_messages (parse : String → Option CommandResponse)
    (provider : Nat → Except GoError String) (stdin : Nat → String) :
    ∀ (execs : List ExecOutcome) (pi si : Nat) (msgs : List Message)
      (command : String) (ran acc : List String),
      ∃ suffix : List Message,
        (execChain parse provider stdin execs pi si msgs command ran acc).messages
          = msgs ++ suffix ∧ ∀ m ∈ suffix, m.role = roleUser := by
  intro execs
  induction execs with
  | nil =>
    intro pi si msgs command ran acc
    exact ⟨[], by simp [execChain], by simp⟩
  | cons eo rest ih =>
    intro pi si msgs command ran acc
    cases eo with
    | launchError e =>
      exact ⟨[], by simp [execChain], by simp⟩
    | success stdout stderr =>
      refine ⟨if strToLower (strTrim (stdin si)) = "y" ∨ strToLower (strTrim (stdin si)) = "yes"
              then [⟨roleUser, outputContextContent stdout⟩] else [], ?_, ?_⟩
      · simp only [execChain, successTail_eq]
      · split <;> simp
    | exitError code stdout stderr =>
      by_cases hc : code = 0
      · refine ⟨if strToLower (strTrim (stdin si)) = "y" ∨ strToLower (strTrim (stdin si)) = "yes"
                then [⟨roleUser, outputContextContent stdout⟩] else [], ?_, ?_⟩
        · simp only [execChain, hc, successTail_eq]
          simp
        · split <;> simp
      · have hc' : code ≠ 0 := hc
        cases hp : provider pi with
        | error e =>
          refine ⟨[⟨roleUser, fixRequestContent stdout stderr⟩], ?_, by simp [roleUser]⟩
          simp [execChain, hc', hp]
        | ok completion =>
          cases hparse : parse completion with
          | none =>
            refine ⟨[⟨roleUser, fixRequestContent stdout stderr⟩], ?_, by simp [roleUser]⟩
            simp [execChain, hc', hp, hparse]
          | some fixResponse =>
            by_cases hans : strToLower (strTrim (stdin si)) = "" ∨ strToLower (strTrim (stdin si)) = "y"
                ∨ strToLower (strTrim (stdin si)) = "yes"
            · obtain ⟨s, hs, hroles⟩ := ih (pi + 1) (si + 1)
                (msgs ++ [⟨roleUser, fixRequestContent stdout stderr⟩])
                (strTrim fixResponse.command) (ran ++ [command])
                (acc ++ [strToLower (strTrim (stdin si))])
              refine ⟨⟨roleUser, fixRequestContent stdout stderr⟩ :: s, ?_, ?_⟩
              · simp only [execChain, hp, hparse]
                rw [if_pos hc', if_pos hans, hs]
                simp
              · intro m hm
                rcases List.mem_cons.mp hm with h | h
                · rw [h]
                · exact hroles m h
            · refine ⟨[⟨roleUser, fixRequestContent stdout stderr⟩], ?_, by simp [roleUser]⟩
              simp only [execChain, hp, hparse]
              rw [if_pos hc', if_neg hans]

/-- Accounting invariant of the execution chain: the accepted answers it
records extend the accumulator only with recognized accepting answers, and
the number of executions it performs is one more than the number of
acceptances (except when the scripted outcomes ran out, where they are
equal), and never exceeds the number of scripted outcomes. -/
theorem execChain_count (parse : String → Option CommandResponse)
    (provider : Nat → Except GoError String) (stdin : Nat → String) :
    ∀ (execs : List ExecOutcome) (pi si : Nat) (msgs : List Message)
      (command : String) (ran acc : List String),
      ∃ newAcc : List String,
        (execChain parse provider stdin execs pi si msgs command ran acc).accepted
            = acc ++ newAcc
        ∧ (∀ a ∈ newAcc, a = "" ∨ a = "y" ∨ a = "yes")
        ∧ ((execChain parse provider stdin execs pi si msgs command ran acc).ending
              = .ranOut →
            (execChain parse provider stdin execs pi si msgs command ran acc).executed.length
              = ran.length + newAcc.length)
        ∧ ((execChain parse provider stdin execs pi si msgs command ran acc).ending
              ≠ .ranOut →
            (execChain parse provider stdin execs pi si msgs command ran acc).executed.length
              = ran.length + newAcc.length + 1)
        ∧ (execChain parse provider stdin execs pi si msgs command ran acc).executed.length
            ≤ ran.length + execs.length := by
  intro execs
  induction execs with
  | nil =>
    intro pi si msgs command ran acc
    exact ⟨[], by simp [execChain], by simp, by simp [execChain],
      by simp [execChain], by simp [execChain]⟩
  | cons eo rest ih =>
    intro pi si msgs command ran acc
    cases eo with
    | launchError e =>
      refine ⟨[], by simp [execChain], by simp, ?_, ?_, ?_⟩ <;>
        simp [execChain]
    | success stdout stderr =>
      refine ⟨[], ?_, by simp, ?_, ?_, ?_⟩ <;>
        simp [execChain, successTail_eq]
    | exitError code stdout stderr =>
      by_cases hc : code = 0
      · refine ⟨[], ?_, by simp, ?_, ?_, ?_⟩ <;>
          simp [execChain, hc, successTail_eq]
      · have hc' : code ≠ 0 := hc
        cases hp : provider pi with
        | error e =>
          refine ⟨[], ?_, by simp, ?_, ?_, ?_⟩ <;>
            simp [execChain, hc', hp]
        | ok completion =>
          cases hparse : parse completion with
          | none =>
            refine ⟨[], ?_, by simp, ?_, ?_, ?_⟩ <;>
              simp [execChain, hc', hp, hparse]
          | some fixResponse =>
            by_cases hans : strToLower (strTrim (stdin si)) = "" ∨ strToLower (strTrim (stdin si)) = "y"
                ∨ strToLower (strTrim (stdin si)) = "yes"
            · obtain ⟨newAcc, hacc, hmem, hro, hnro, hbound⟩ := ih (pi + 1) (si + 1)
                (msgs ++ [⟨roleUser, fixRequestContent stdout stderr⟩])
                (strTrim fixResponse.command) (ran ++ [command])
                (acc ++ [strToLower (strTrim (stdin si))])
              have hred : execChain parse provider stdin
                  (.exitError code stdout stderr :: rest) pi si msgs command ran acc
                  = execChain parse provider stdin rest (pi + 1) (si + 1)
                      (msgs ++ [⟨roleUser, fixRequestContent stdout stderr⟩])
                      (strTrim fixResponse.command) (ran ++ [command])
                      (acc ++ [strToLower (strTrim (stdin si))]) := by
                simp only [execChain, hp, hparse]
                rw [if_pos hc', if_pos hans]
              refine ⟨strToLower (strTrim (stdin si)) :: newAcc, ?_, ?_, ?_, ?_, ?_⟩
              · rw [hred, hacc]
                simp
              · intro a ha
                rcases List.mem_cons.mp ha with h | h
                · rw [h]; exact hans
                · exact hmem a h
              · intro hend
                rw [hred] at hend ⊢
                rw [hro hend]
                simp
                omega
              · intro hend
                rw [hred] at hend ⊢
                rw [hnro hend]
                simp
                omega
              · rw [hred]
                refine le_trans hbound ?_
                simp
                omega
            · refine ⟨[], ?_, by simp, ?_, ?_, ?_⟩ <;>
                (simp only [execChain, hp, hparse]; rw [if_pos hc', if_neg hans]) <;> simp

/-- When the request does not terminate the loop (it is the argument-sourced
first request, or a stdin line whose trimmed text is not `exit`), the
iteration runs the body and continues awaiting input. -/
theorem loopIter_runs_body (parse : String → Option CommandResponse)
    (provider : Nat → Except GoError String) (stdin : Nat → String)
    (execs : List ExecOutcome) (msgs : List Message)
    (fromArgs : Bool) (rawRequest : String)
    (h : fromArgs = false → strTrim rawRequest ≠ "exit") :
    loopIter parse provider stdin execs msgs fromArgs rawRequest
      = .awaitInput (loopBody parse provider stdin execs msgs
          (if fromArgs then rawRequest else strTrim rawRequest)) := by
  cases fromArgs with
  | false =>
    have hne := h rfl
    simp [loopIter, hne]
  | true =>
    simp [loopIter]

/-- A list of user turns contains no assistant turn. -/
theorem filter_assistant_of_user {l : List Message}
    (h : ∀ m ∈ l, m.role = roleUser) :
    l.filter (fun m => m.role == roleAssistant) = [] := by
  rw [List.filter_eq_nil_iff]
  intro m hm
  rw [h m hm]
  simp [roleUser, roleAssistant]

/-! ## Claim theorems: provider layer -/

/-- C1: when no provider is forced by flag, the provider selected at startup
follows the environment-variable precedence Anthropic over OpenAI over
Ollama: in every environment in which the Anthropic credential is set the
Anthropic variant is chosen; otherwise the OpenAI variant when its key is
set; otherwise the Ollama variant when its endpoint is configured. -/
theorem C1_provider_precedence (env : Env) :
    (env.anthropicApiKey ≠ "" → getClient env = .ok .anthropic) ∧
    (env.anthropicApiKey = "" → env.openaiApiKey ≠ "" →
      getClient env = .ok .openai) ∧
    (env.anthropicApiKey = "" → env.openaiApiKey = "" →
      env.ollamaApiBase ≠ "" → getClient env = .ok .ollama) := by
  refine ⟨fun h1 => ?_, fun h1 h2 => ?_, fun h1 h2 h3 => ?_⟩
  · simp [getClient, h1]
  · simp [getClient, h1, h2]
  · simp [getClient, h1, h2, h3]

/-- Concrete instances of the three branches of `C1_provider_precedence`. -/
theorem C1_provider_precedence_witness :
    getClient ⟨"k1", "k2", "b"⟩ = .ok .anthropic ∧
    getClient ⟨"", "k2", "b"⟩ = .ok .openai ∧
    getClient ⟨"", "", "b"⟩ = .ok .ollama :=
  ⟨(C1_provider_precedence ⟨"k1", "k2", "b"⟩).1 (by decide),
   (C1_provider_precedence ⟨"", "k2", "b"⟩).2.1 (by decide) (by decide),
   (C1_provider_precedence ⟨"", "", "b"⟩).2.2 (by decide) (by decide) (by decide)⟩

/-- C2 counterexample: both cloud variants can return an empty string
together with a nil error.  The OpenAI variant returns
`resp.Choices[0].Message.Content` unchecked, and the Anthropic variant
returns `content[0].text` unchecked, so a successful response whose first
element carries empty text yields `("", nil)`. -/
theorem C2_empty_text_counterexample :
    OpenAIClient.GenerateCompletion (.ok ⟨[⟨⟨""⟩⟩]⟩) = some (.ok "") ∧
    AnthropicClient.GenerateCompletion (.response 200 "" (some ⟨[⟨""⟩]⟩))
      = .ok "" :=
  ⟨rfl, rfl⟩

/-- C2 (amended): only the Ollama variant guarantees the property — for
every outcome of its HTTP exchange, `GenerateCompletion` either fails or
returns a non-empty string, never an empty string with a nil error.  The
OpenAI and Anthropic variants return the first choice's (respectively first
content element's) text unchecked and can return `("", nil)`. -/
theorem C2_ollama_nonempty (outcome : OllamaHttp) (s : String)
    (h : OllamaClient.GenerateCompletion outcome = .ok s) : s ≠ "" := by
  cases outcome with
  | netError e => simp [OllamaClient.GenerateCompletion] at h
  | response status body lines scanError =>
    simp only [OllamaClient.GenerateCompletion] at h
    split at h
    · exact absurd h (by simp)
    · exact processLines_ok_ne_empty scanError lines "" s h

/-- Concrete instance of `C2_ollama_nonempty`: a one-record stream. -/
theorem C2_ollama_nonempty_witness :
    OllamaClient.GenerateCompletion
        (.response 200 "" [.parsed ⟨"m", "t", ⟨"assistant", "ok"⟩, true⟩] none)
      = .ok "ok" ∧ ("ok" : String) ≠ "" :=
  ⟨rfl, C2_ollama_nonempty
    (.response 200 "" [.parsed ⟨"m", "t", ⟨"assistant", "ok"⟩, true⟩] none)
    "ok" rfl⟩

/-- C5: on a stream of well-formed lines (and no read error), the Ollama
variant returns the concatenation of the non-empty message content fields
of the records up to and including the first one whose `done` field is
true, ignoring blank lines and everything after the terminal record; when
that concatenation is empty it fails instead of returning text. -/
theorem C5_stream_concatenation (body : String) (lines : List ScanLine)
    (hwf : ∀ l ∈ lines, l.isMalformed = false) :
    OllamaClient.GenerateCompletion (.response 200 body lines none)
      = (if contentsConcat (recordsToDone lines) = ""
         then .error "no valid response received from Ollama API"
         else .ok (contentsConcat (recordsToDone lines))) := by
  simp only [OllamaClient.GenerateCompletion]
  rw [if_neg (by simp), processLines_eq_spec lines hwf ""]
  simp [OllamaClient.finish]

/-- Concrete instance of `C5_stream_concatenation`: two content fragments
across several lines, a blank line, an empty terminal fragment, and a line
after the terminal record that is ignored. -/
theorem C5_stream_concatenation_witness :
    OllamaClient.GenerateCompletion (.response 200 ""
      [.parsed ⟨"m", "t", ⟨"assistant", "Hel"⟩, false⟩,
       .blank,
       .parsed ⟨"m", "t", ⟨"assistant", "lo"⟩, false⟩,
       .parsed ⟨"m", "t", ⟨"assistant", ""⟩, true⟩,
       .parsed ⟨"m", "t", ⟨"assistant", "XX"⟩, false⟩] none)
      = .ok "Hello" := by
  rw [C5_stream_concatenation _ _ (by decide)]
  rfl

/-- C9: the OpenAI variant's `GenerateCompletion` extracts
`Choices[0]` without a length check: on a nil-error response it panics
(modelled as `none`) exactly when the choices list is empty, and under the
precondition that the response has at least one choice it returns that
choice's message content. -/
theorem C9_choices_indexing_guard :
    (∀ e : GoError,
      OpenAIClient.GenerateCompletion (.error e) = some (.error e)) ∧
    (∀ resp : ChatCompletionResponse,
      OpenAIClient.GenerateCompletion (.ok resp) = none ↔ resp.choices = []) ∧
    (∀ (resp : ChatCompletionResponse) (c : ChatChoice) (cs : List ChatChoice),
      resp.choices = c :: cs →
      OpenAIClient.GenerateCompletion (.ok resp) = some (.ok c.message.content)) := by
  refine ⟨fun e => rfl, fun resp => ?_, fun resp c cs h => ?_⟩
  · cases hres : resp.choices with
    | nil => simp [OpenAIClient.GenerateCompletion, hres]
    | cons c cs => simp [OpenAIClient.GenerateCompletion, hres]
  · simp [OpenAIClient.GenerateCompletion, h]

/-- Concrete instances of `C9_choices_indexing_guard`: the empty choices
list panics, a singleton list yields its content. -/
theorem C9_choices_indexing_guard_witness :
    OpenAIClient.GenerateCompletion (.ok ⟨[]⟩) = none ∧
    OpenAIClient.GenerateCompletion (.ok ⟨[⟨⟨"hello"⟩⟩]⟩)
      = some (.ok "hello") :=
  ⟨(C9_choices_indexing_guard.2.1 ⟨[]⟩).mpr rfl,
   C9_choices_indexing_guard.2.2 ⟨[⟨⟨"hello"⟩⟩]⟩ ⟨⟨"hello"⟩⟩ [] rfl⟩

/-! ## Claim theorems: conversation loop -/

/-- C4: when the model reply fails to parse as `{command, description}`
JSON, the body reports a parse error carrying the raw reply text and the
only change to the history is the user turn for the request itself — no
assistant turn is appended and nothing executes; and a stdin-sourced
request other than `exit` always continues to await the next input. -/
theorem C4_parse_error_keeps_history (parse : String → Option CommandResponse)
    (provider : Nat → Except GoError String) (stdin : Nat → String)
    (execs : List ExecOutcome) (msgs : List Message)
    (userRequest completion : String)
    (hprov : provider 0 = .ok completion) (hparse : parse completion = none) :
    loopBody parse provider stdin execs msgs userRequest
      = ⟨msgs ++ [⟨roleUser, promptTemplate userRequest⟩], [], [],
         .parseError completion⟩
    ∧ (∀ raw : String, strTrim raw ≠ "exit" →
        loopIter parse provider stdin execs msgs false raw
          = .awaitInput ⟨msgs ++ [⟨roleUser, promptTemplate (strTrim raw)⟩], [], [],
              .parseError completion⟩) := by
  constructor
  · simp only [loopBody, hprov, hparse]
  · intro raw hraw
    rw [loopIter_runs_body parse provider stdin execs msgs false raw (fun _ => hraw)]
    simp only [Bool.false_eq_true, if_false, loopBody, hprov, hparse]

/-- Concrete instance of `C4_parse_error_keeps_history`: the reply
`not json` is reported raw and leaves no assistant turn. -/
theorem C4_parse_error_keeps_history_witness :
    loopBody (fun _ => none) (fun _ => Except.ok "not json") (fun _ => "")
        [] [] "list files"
      = ⟨[⟨roleUser, promptTemplate "list files"⟩], [], [],
         .parseError "not json"⟩ :=
  (C4_parse_error_keeps_history (fun _ => none) (fun _ => Except.ok "not json")
    (fun _ => "") [] [] "list files" "not json" rfl rfl).1

/-- C6: the confirmation answer, lowercased and trimmed, dispatches as
follows: the empty string, `y` and `yes` enter the execution chain with the
displayed command; `f` skips execution (no command is run) while the
history keeps the unexecuted command as an assistant turn; any other answer
runs nothing and falls through. -/
theorem C6_confirmation_dispatch (parse : String → Option CommandResponse)
    (provider : Nat → Except GoError String) (stdin : Nat → String)
    (execs : List ExecOutcome) (msgs : List Message)
    (userRequest completion : String) (cmdResponse : CommandResponse)
    (hprov : provider 0 = .ok completion)
    (hparse : parse completion = some cmdResponse) :
    let command := strTrim cmdResponse.command
    let base := msgs ++ [⟨roleUser, promptTemplate userRequest⟩,
                         ⟨roleAssistant, command⟩]
    let response := strToLower (strTrim (stdin 0))
    (response = "" ∨ response = "y" ∨ response = "yes" →
      loopBody parse provider stdin execs msgs userRequest
        = execChain parse provider stdin execs 1 1 base command [] []) ∧
    (response = "f" →
      loopBody parse provider stdin execs msgs userRequest
        = ⟨base, [], [], .fixRequested⟩) ∧
    (response ≠ "f" →
      ¬(response = "" ∨ response = "y" ∨ response = "yes") →
      loopBody parse provider stdin execs msgs userRequest
        = ⟨base, [], [], .notConfirmed⟩) := by
  refine ⟨fun hacc => ?_, fun hf => ?_, fun hnf hnacc => ?_⟩
  · have hnf : strToLower (strTrim (stdin 0)) ≠ "f" := by
      rcases hacc with h | h | h <;> simp [h]
    simp only [loopBody, hprov, hparse]
    rw [if_neg hnf, if_pos hacc]
    simp [List.append_assoc]
  · simp only [loopBody, hprov, hparse]
    rw [if_pos hf]
    simp [List.append_assoc]
  · simp only [loopBody, hprov, hparse]
    rw [if_neg hnf, if_neg hnacc]
    simp [List.append_assoc]

/-- Concrete instances of the three branches of `C6_confirmation_dispatch`:
`yes ` executes (one execution is recorded), `f` and `nah` do not. -/
theorem C6_confirmation_dispatch_witness :
    loopBody (fun _ => some ⟨" ls ", "d"⟩) (fun _ => Except.ok "j")
        (fun n => if n = 0 then "YES " else "n") [.success "o" ""] [] "r"
      = ⟨[⟨roleUser, promptTemplate "r"⟩, ⟨roleAssistant, "ls"⟩],
         ["ls"], [], .commandSucceeded⟩ ∧
    loopBody (fun _ => some ⟨" ls ", "d"⟩) (fun _ => Except.ok "j")
        (fun _ => "f") [.success "o" ""] [] "r"
      = ⟨[⟨roleUser, promptTemplate "r"⟩, ⟨roleAssistant, "ls"⟩],
         [], [], .fixRequested⟩ ∧
    loopBody (fun _ => some ⟨" ls ", "d"⟩) (fun _ => Except.ok "j")
        (fun _ => "nah") [.success "o" ""] [] "r"
      = ⟨[⟨roleUser, promptTemplate "r"⟩, ⟨roleAssistant, "ls"⟩],
         [], [], .notConfirmed⟩ := by
  refine ⟨?_, ?_, ?_⟩
  · exact ((C6_confirmation_dispatch (fun _ => some ⟨" ls ", "d"⟩)
      (fun _ => Except.ok "j") (fun n => if n = 0 then "YES " else "n") [.success "o" ""] [] "r" "j"
      ⟨" ls ", "d"⟩ rfl rfl).1 (by decide)).trans (by rfl)
  · exact ((C6_confirmation_dispatch (fun _ => some ⟨" ls ", "d"⟩)
      (fun _ => Except.ok "j") (fun _ => "f") [.success "o" ""] [] "r" "j"
      ⟨" ls ", "d"⟩ rfl rfl).2.1 (by decide)).trans (by rfl)
  · exact ((C6_confirmation_dispatch (fun _ => some ⟨" ls ", "d"⟩)
      (fun _ => Except.ok "j") (fun _ => "nah") [.success "o" ""] [] "r" "j"
      ⟨" ls ", "d"⟩ rfl rfl).2.2 (by decide) (by decide)).trans (by rfl)

/-- C7: on every successfully parsed reply, the assistant turn appended to
the history is exactly the whitespace-trimmed `command` field — not the raw
JSON reply and not the description — and every message added afterwards in
the same iteration is a user turn, so the assistant turns of the history
grow by exactly that one command text. -/
theorem C7_assistant_turn_is_command (parse : String → Option CommandResponse)
    (provider : Nat → Except GoError String) (stdin : Nat → String)
    (execs : List ExecOutcome) (msgs : List Message)
    (userRequest completion : String) (cmdResponse : CommandResponse)
    (hprov : provider 0 = .ok completion)
    (hparse : parse completion = some cmdResponse) :
    ∃ suffix : List Message,
      (loopBody parse provider stdin execs msgs userRequest).messages
        = msgs ++ [⟨roleUser, promptTemplate userRequest⟩,
                   ⟨roleAssistant, strTrim cmdResponse.command⟩] ++ suffix
      ∧ (∀ m ∈ suffix, m.role = roleUser)
      ∧ (loopBody parse provider stdin execs msgs userRequest).messages.filter
            (fun m => m.role == roleAssistant)
          = msgs.filter (fun m => m.role == roleAssistant)
            ++ [⟨roleAssistant, strTrim cmdResponse.command⟩] := by
  have key : ∃ suffix : List Message,
      (loopBody parse provider stdin execs msgs userRequest).messages
        = msgs ++ [⟨roleUser, promptTemplate userRequest⟩,
                   ⟨roleAssistant, strTrim cmdResponse.command⟩] ++ suffix
      ∧ ∀ m ∈ suffix, m.role = roleUser := by
    simp only [loopBody, hprov, hparse]
    by_cases hf : strToLower (strTrim (stdin 0)) = "f"
    · rw [if_pos hf]
      exact ⟨[], by simp, by simp⟩
    · rw [if_neg hf]
      by_cases hacc : strToLower (strTrim (stdin 0)) = ""
          ∨ strToLower (strTrim (stdin 0)) = "y"
          ∨ strToLower (strTrim (stdin 0)) = "yes"
      · rw [if_pos hacc]
        obtain ⟨s, hs, hroles⟩ := execChain_messages parse provider stdin execs 1 1
          (msgs ++ [⟨roleUser, promptTemplate userRequest⟩]
            ++ [⟨roleAssistant, strTrim cmdResponse.command⟩])
          (strTrim cmdResponse.command) [] []
        refine ⟨s, ?_, hroles⟩
        rw [hs]
        simp
      · rw [if_neg hacc]
        exact ⟨[], by simp, by simp⟩
  obtain ⟨suffix, hs, hroles⟩ := key
  refine ⟨suffix, hs, hroles, ?_⟩
  rw [hs]
  simp only [List.filter_append, filter_assistant_of_user hroles, List.append_nil]
  simp [roleUser, roleAssistant]

/-- Concrete instance of `C7_assistant_turn_is_command`: the reply parses
to the command `  ls -la  ` with a long description; the only assistant
turn added carries `ls -la`. -/
theorem C7_assistant_turn_is_command_witness :
    (loopBody (fun _ => some ⟨"  ls -la  ", "long description"⟩)
        (fun _ => Except.ok "{json}") (fun _ => "f") [] [] "r").messages.filter
        (fun m => m.role == roleAssistant)
      = [⟨roleAssistant, "ls -la"⟩] := by
  obtain ⟨s, hs, hroles, hfilter⟩ := C7_assistant_turn_is_command
    (fun _ => some ⟨"  ls -la  ", "long description"⟩)
    (fun _ => Except.ok "{json}") (fun _ => "f") [] [] "r" "{json}"
    ⟨"  ls -la  ", "long description"⟩ rfl rfl
  exact hfilter.trans (by rfl)

/-- C10: during the execution chain the only history modifications are
appended user turns (the failure-report turns and, after a success, the
optional output turn); the fixed commands returned by the provider are
executed but never appended as assistant turns, so the assistant turns of
the history — in particular the last one, the original parsed command —
are exactly those it started with. -/
theorem C10_chain_appends_only_user_turns (parse : String → Option CommandResponse)
    (provider : Nat → Except GoError String) (stdin : Nat → String)
    (execs : List ExecOutcome) (pi si : Nat) (msgs : List Message)
    (command : String) (ran acc : List String) :
    ∃ suffix : List Message,
      (execChain parse provider stdin execs pi si msgs command ran acc).messages
        = msgs ++ suffix
      ∧ (∀ m ∈ suffix, m.role = roleUser)
      ∧ (execChain parse provider stdin execs pi si msgs command ran acc).messages.filter
            (fun m => m.role == roleAssistant)
          = msgs.filter (fun m => m.role == roleAssistant) := by
  obtain ⟨s, hs, hroles⟩ :=
    execChain_messages parse provider stdin execs pi si msgs command ran acc
  refine ⟨s, hs, hroles, ?_⟩
  rw [hs, List.filter_append, filter_assistant_of_user hroles, List.append_nil]

/-- C8: after a confirmed execution that exits with code 0, the loop asks
whether to add the captured stdout to the context, appends it as a user
turn exactly when the (trimmed, lowercased) answer is `y` or `yes`, and
the iteration continues awaiting the next input instead of terminating. -/
theorem C8_success_output_optin (parse : String → Option CommandResponse)
    (provider : Nat → Except GoError String) (stdin : Nat → String)
    (rest : List ExecOutcome) (msgs : List Message)
    (raw completion stdout stderr : String) (cmdResponse : CommandResponse)
    (hreq : strTrim raw ≠ "exit")
    (hprov : provider 0 = .ok completion)
    (hparse : parse completion = some cmdResponse)
    (hconf : strToLower (strTrim (stdin 0)) = ""
      ∨ strToLower (strTrim (stdin 0)) = "y"
      ∨ strToLower (strTrim (stdin 0)) = "yes") :
    let command := strTrim cmdResponse.command
    let base := msgs ++ [⟨roleUser, promptTemplate (strTrim raw)⟩,
                         ⟨roleAssistant, command⟩]
    let ctx := strToLower (strTrim (stdin 1))
    loopIter parse provider stdin (.success stdout stderr :: rest) msgs false raw
      = .awaitInput ⟨base ++ (if ctx = "y" ∨ ctx = "yes"
                              then [⟨roleUser, outputContextContent stdout⟩]
                              else []),
                     [command], [], .commandSucceeded⟩ := by
  have hnf : strToLower (strTrim (stdin 0)) ≠ "f" := by
    rcases hconf with h | h | h <;> simp [h]
  rw [loopIter_runs_body parse provider stdin (.success stdout stderr :: rest)
    msgs false raw (fun _ => hreq)]
  simp only [Bool.false_eq_true, if_false, loopBody, hprov, hparse]
  rw [if_neg hnf, if_pos hconf]
  simp only [execChain, successTail_eq]
  simp [List.append_assoc]

/-- Concrete instance of `C8_success_output_optin`: empty confirmation
answer, context answer `y`; the output turn is appended and the loop
continues awaiting input. -/
theorem C8_success_output_optin_witness :
    loopIter (fun _ => some ⟨" ls ", "d"⟩) (fun _ => Except.ok "j")
        (fun n => if n = 1 then "y" else "") [.success "OUT" ""] [] false
        "list files"
      = .awaitInput ⟨[⟨roleUser, promptTemplate "list files"⟩,
                      ⟨roleAssistant, "ls"⟩,
                      ⟨roleUser, outputContextContent "OUT"⟩],
                     ["ls"], [], .commandSucceeded⟩ := by
  have h := C8_success_output_optin (fun _ => some ⟨" ls ", "d"⟩)
    (fun _ => Except.ok "j") (fun n => if n = 1 then "y" else "") [] []
    "list files" "j" "OUT" "" ⟨" ls ", "d"⟩ (by decide) rfl rfl (by decide)
  exact h.trans (by rfl)

/-- C3 counterexample: the fix-retry chain does not end only by a user
decline or a successful run — after a failed execution, an unparseable fix
reply ends the chain too (with the error reported and the loop returning to
await input), before the user is ever asked. -/
theorem C3_chain_end_counterexample :
    (execChain (fun _ => none) (fun _ => Except.ok "not json") (fun _ => "")
        [.exitError 2 "out" "err"] 0 0 [] "badcmd" [] []).ending
      = .fixParseError
    ∧ Ending.fixParseError ≠ Ending.fixDeclined
    ∧ Ending.fixParseError ≠ Ending.commandSucceeded
    ∧ Ending.fixParseError ≠ Ending.ranOut :=
  ⟨rfl, by decide, by decide, by decide⟩

/-- C3 (amended): after a confirmed execution with non-zero exit code the
chain appends exactly one user turn embedding the captured stdout and
stderr, calls the provider, and on a successful parse prompts for the fix:
an accepting answer loops back into execution with the trimmed replacement
command, any other answer ends the chain; every re-execution is guarded by
an accepting answer (the executions number one more than the acceptances,
except when the scripted outcomes run out), and the chain is bounded by the
scripted outcomes — but besides a decline or a success it also ends when
the fix generation fails, the fix reply does not parse, or the command
fails to launch. -/
theorem C3_fix_retry_chain :
    (∀ (parse : String → Option CommandResponse)
       (provider : Nat → Except GoError String) (stdin : Nat → String)
       (code : Int) (stdout stderr : String) (rest : List ExecOutcome)
       (pi si : Nat) (msgs : List Message) (command : String)
       (ran acc : List String) (completion : String)
       (fixResponse : CommandResponse),
      code ≠ 0 → provider pi = .ok completion →
      parse completion = some fixResponse →
      (strToLower (strTrim (stdin si)) = ""
        ∨ strToLower (strTrim (stdin si)) = "y"
        ∨ strToLower (strTrim (stdin si)) = "yes") →
      execChain parse provider stdin (.exitError code stdout stderr :: rest)
          pi si msgs command ran acc
        = execChain parse provider stdin rest (pi + 1) (si + 1)
            (msgs ++ [⟨roleUser, fixRequestContent stdout stderr⟩])
            (strTrim fixResponse.command) (ran ++ [command])
            (acc ++ [strToLower (strTrim (stdin si))])) ∧
    (∀ (parse : String → Option CommandResponse)
       (provider : Nat → Except GoError String) (stdin : Nat → String)
       (code : Int) (stdout stderr : String) (rest : List ExecOutcome)
       (pi si : Nat) (msgs : List Message) (command : String)
       (ran acc : List String) (completion : String)
       (fixResponse : CommandResponse),
      code ≠ 0 → provider pi = .ok completion →
      parse completion = some fixResponse →
      ¬(strToLower (strTrim (stdin si)) = ""
        ∨ strToLower (strTrim (stdin si)) = "y"
        ∨ strToLower (strTrim (stdin si)) = "yes") →
      execChain parse provider stdin (.exitError code stdout stderr :: rest)
          pi si msgs command ran acc
        = ⟨msgs ++ [⟨roleUser, fixRequestContent stdout stderr⟩],
           ran ++ [command], acc, .fixDeclined⟩) ∧
    (∀ (parse : String → Option CommandResponse)
       (provider : Nat → Except GoError String) (stdin : Nat → String)
       (execs : List ExecOutcome) (pi si : Nat) (msgs : List Message)
       (command : String),
      ∃ accepted : List String,
        (execChain parse provider stdin execs pi si msgs command [] []).accepted
            = accepted
        ∧ (∀ a ∈ accepted, a = "" ∨ a = "y" ∨ a = "yes")
        ∧ ((execChain parse provider stdin execs pi si msgs command [] []).ending
              = .ranOut →
            (execChain parse provider stdin execs pi si msgs command [] []).executed.length
              = accepted.length)
        ∧ ((execChain parse provider stdin execs pi si msgs command [] []).ending
              ≠ .ranOut →
            (execChain parse provider stdin execs pi si msgs command [] []).executed.length
              = accepted.length + 1)
        ∧ (execChain parse provider stdin execs pi si msgs command [] []).executed.length
            ≤ execs.length) := by
  refine ⟨?_, ?_, ?_⟩
  · intro parse provider stdin code stdout stderr rest pi si msgs command ran acc
      completion fixResponse hc hp hparse hans
    simp only [execChain, hp, hparse]
    rw [if_pos hc, if_pos hans]
  · intro parse provider stdin code stdout stderr rest pi si msgs command ran acc
      completion fixResponse hc hp hparse hans
    simp only [execChain, hp, hparse]
    rw [if_pos hc, if_neg hans]
  · intro parse provider stdin execs pi si msgs command
    obtain ⟨newAcc, hacc, hmem, hro, hnro, hbound⟩ :=
      execChain_count parse provider stdin execs pi si msgs command [] []
    refine ⟨newAcc, by simpa using hacc, hmem, ?_, ?_, by simpa using hbound⟩
    · intro h
      simpa using hro h
    · intro h
      simpa using hnro h

/-- Concrete instance of the accepting step of `C3_fix_retry_chain`: a
failed execution (exit code 2), a parsed fix and an empty (accepting)
answer re-enter the chain with the fixed command and the one appended
failure-report turn. -/
theorem C3_fix_retry_chain_witness :
    execChain (fun _ => some ⟨"fixed cmd", "d"⟩) (fun _ => Except.ok "j")
        (fun _ => "") [.exitError 2 "o" "e"] 0 0 [] "orig" [] []
      = execChain (fun _ => some ⟨"fixed cmd", "d"⟩) (fun _ => Except.ok "j")
          (fun _ => "") [] 1 1 [⟨roleUser, fixRequestContent "o" "e"⟩]
          "fixed cmd" ["orig"] [""] := by
  have h := C3_fix_retry_chain.1 (fun _ => some ⟨"fixed cmd", "d"⟩)
    (fun _ => Except.ok "j") (fun _ => "") 2 "o" "e" [] 0 0 [] "orig" [] []
    "j" ⟨"fixed cmd", "d"⟩ (by decide) rfl rfl (by decide)
  exact h.trans (by rfl)

end Aicmd
